import Mathlib

/-!
Shallow embedding of the PartOfSpeechTagging data pipeline
(src/data_input.py and src/text_vectorizer.py).

Modelling conventions:
* Python strings are Lean `String`; documents are `List String`;
  corpora are `List (List String)`.
* Embedding vectors are `List ℚ` (numpy float arrays; only lengths and
  identity of entries matter to the claims, so exact rationals stand in
  for floats).
* Python exceptions are an explicit `PyError` value carried by `Except`.
* A Python `dict` is an association list `List (String × Vec)`; lookup is
  the first binding (keys are never inserted twice, matching `dict`).
* Ambient randomness (`np.random.uniform`, `random.shuffle`) is passed in
  explicitly: `draws : ℕ → ℕ → ℚ` supplies the coordinates of the i-th
  random vector, and the shuffled dataset is an arbitrary permutation of
  the zipped input, quantified in the theorems.
* File reading is modelled by passing the list of lines of each file
  (newline-stripped; `readlines` keeps the trailing newline only inside
  the ignored third field, so nothing observable changes).
-/

/-- The kinds of Python exceptions raised by the code paths modelled here.
`notAdapted` is the custom `NotAdaptedError`; the others are builtins. -/
inductive PyError where
  | notAdapted (msg : String)
  | valueError (msg : String)
  | attributeError (msg : String)
  deriving DecidableEq, Repr

abbrev Vec := List ℚ

deriving instance DecidableEq for Except

/-! ### Small Python-semantics helpers -/

/-- `line.strip() == ""`: true when every character is whitespace. -/
def pyIsBlank (s : String) : Bool :=
  s.toList.all fun c => c == ' ' || c == '\t' || c == '\n' || c == '\r'

/-- Split a character list at every occurrence of `sep`, keeping empty
fields (the semantics of Python `str.split` with an explicit
separator). -/
def splitChars (sep : Char) : List Char → List (List Char)
  | [] => [[]]
  | c :: cs =>
    if c = sep then [] :: splitChars sep cs
    else
      match splitChars sep cs with
      | w :: ws => (c :: w) :: ws
      | [] => [[c]]

/-- `s.split("\t")`: split on every tab, keeping empty fields. -/
def pySplitTab (s : String) : List String :=
  (splitChars '\t' s.toList).map String.mk

/-- The message of the `ValueError` raised by unpacking a list of length
`k` into a tuple of `expect` names (tuple-unpacking assignment). -/
def unpackMsg (expect k : ℕ) : String :=
  if k < expect then
    "not enough values to unpack (expected " ++ toString expect ++ ", got " ++ toString k ++ ")"
  else "too many values to unpack (expected " ++ toString expect ++ ")"

/-! ### Corpus Parser (src/data_input.py, DataInput.parse_dataset) -/

/-- Sentence-split parsing of one file, mirroring the loop of
`parse_dataset` when `split_into_sentences` is true: a blank line appends
the accumulated `(sentence_text, sentence_tags)` pair (even when empty)
and resets the accumulators; a non-blank line must split on tabs into
exactly three fields (`token, tag, number = line.split("\t")`, a
`ValueError` otherwise); after the loop the accumulated pair is appended
once more. -/
def parseSentences (sentText sentTags : List String) :
    List String → Except PyError (List (List String × List String))
  | [] => .ok [(sentText, sentTags)]
  | line :: rest =>
    if pyIsBlank line then
      match parseSentences [] [] rest with
      | .ok docs => .ok ((sentText, sentTags) :: docs)
      | .error e => .error e
    else
      match pySplitTab line with
      | [token, tag, _] => parseSentences (sentText ++ [token]) (sentTags ++ [tag]) rest
      | other => .error (.valueError (unpackMsg 3 other.length))

/-- Split-mode parse of one document file (list of its lines). -/
def parseDocSplit (lines : List String) :
    Except PyError (List (List String × List String)) :=
  parseSentences [] [] lines

/-- Non-split parsing of one file:
`np.loadtxt(doc, str, delimiter="\t", usecols=(0, 1))` followed by the
column projections. The (pre-1.23) loadtxt reader skips blank lines,
splits each remaining line on the delimiter and indexes columns 0 and 1:
a line with at least two tab-separated fields is accepted no matter how
many fields it has, and only a line with fewer than two fields errors.
(loadtxt squeezes a one-row file to a 1-D array, which the subsequent
column slicing rejects; the model is used on multi-row files only.) -/
def parseDocWhole (lines : List String) :
    Except PyError (List String × List String) :=
  let rows := lines.filter (fun l => !pyIsBlank l)
  match rows.mapM (fun l =>
      match pySplitTab l with
      | tok :: tag :: _ => some (tok, tag)
      | _ => none) with
  | some pairs => .ok (pairs.map Prod.fst, pairs.map Prod.snd)
  | none => .error (.valueError "wrong number of columns")

/-! ### Corpus Splitter (src/data_input.py, DataInput.train_dev_test_split) -/

/-- `train_dev_test_split` after the shuffle: the function receives the
already-shuffled list of `(X[i], y[i])` pairs (the code zips `X` and `y`,
shuffles the pairs in place with `random.shuffle`, and unzips), and
slices `X[:a]`, `X[a:a+b]`, `X[a+b:]` with `a = int(train_size*len(X))`
and `b = int(dev_size*len(X))` (`int` truncates; for the nonnegative
fractions used here that is the floor). -/
def trainDevTestSplit {α β : Type} (shuffled : List (α × β)) (trainSize devSize : ℚ) :
    (List α × List β) × (List α × List β) × (List α × List β) :=
  let X := shuffled.map Prod.fst
  let y := shuffled.map Prod.snd
  let n : ℕ := X.length
  let a : ℕ := (⌊trainSize * (n : ℚ)⌋).toNat
  let b : ℕ := (⌊devSize * (n : ℚ)⌋).toNat
  ((X.take a, y.take a),
   ((X.drop a).take b, (y.drop a).take b),
   (X.drop (a + b), y.drop (a + b)))

/-! ### Embedding Vocabulary (src/text_vectorizer.py, TextVectorizer) -/

/-- Value of a decimal digit character. -/
def digitVal (c : Char) : ℕ := c.toNat - 48

/-- Parse an unsigned digit run as a natural number. -/
def digitsToNat (cs : List Char) : ℕ :=
  cs.foldl (fun a c => a * 10 + digitVal c) 0

/-- Parse one decimal token (optional sign, digits, optional fractional
part) as an exact rational, the way `np.fromstring(_, "f", sep=" ")`
reads each space-separated number (its float rounding is immaterial to
the claims, so the exact value is kept). -/
def parseDecimal (s : String) : ℚ :=
  let (sign, cs) : ℚ × List Char :=
    match s.toList with
    | '-' :: r => (-1, r)
    | r => (1, r)
  let ip := cs.takeWhile (· ≠ '.')
  let fp := (cs.dropWhile (· ≠ '.')).drop 1
  sign * ((digitsToNat ip : ℚ) + (digitsToNat fp : ℚ) / (10 : ℚ) ^ fp.length)

/-- `np.fromstring(coefs, "f", sep=" ")`: read every space-separated
token as a number, however many there are — no length check of any
kind. -/
def npFromstring (s : String) : Vec :=
  (((splitChars ' ' s.toList).map String.mk).filter (· ≠ "")).map parseDecimal

/-- `line.split(maxsplit=1)`: at most one split on the first whitespace
run, leading whitespace ignored, remainder kept verbatim after stripping
the whitespace run that separates it from the first word. -/
def pySplitMax1 (s : String) : List String :=
  let cs := s.toList.dropWhile (· = ' ')
  if cs.isEmpty then []
  else
    let w := cs.takeWhile (· ≠ ' ')
    let rest := (cs.dropWhile (· ≠ ' ')).dropWhile (· = ' ')
    if rest.isEmpty then [String.mk w] else [String.mk w, String.mk rest]

/-- Python `dict` assignment `m[k] = v`: overwrite in place when the key
exists, append otherwise. -/
def dictInsert (m : List (String × Vec)) (k : String) (v : Vec) : List (String × Vec) :=
  if (m.lookup k).isSome then
    m.map fun p => if p.1 = k then (k, v) else p
  else m ++ [(k, v)]

/-- `TextVectorizer.parse_glove`, given the lines of the embedding file
(the `embedding_dim` field is used by the method only to build the file
name, which is this argument here): each line is split once on
whitespace into `word, coefs`, and `vocabulary[word]` is set to
`np.fromstring(coefs, "f", sep=" ")`. No validation happens: vectors of
any length are stored as-is; only a line that does not yield two parts
(empty or a single word) raises `ValueError` from the unpacking. -/
def parseGlove (lines : List String) : Except PyError (List (String × Vec)) :=
  lines.foldlM
    (fun vocab line =>
      match pySplitMax1 line with
      | [word, coefs] => .ok (dictInsert vocab word (npFromstring coefs))
      | other => .error (.valueError (unpackMsg 2 other.length)))
    []

/-- `TextVectorizer.adapt(documents)`: the set of words occurring in the
documents is formed, the words already present in the vocabulary are
removed, and each remaining OOV word is inserted with a fresh random
vector `np.random.uniform(-1, 1, size=embedding_dim)`. The Python `set`
iterates in an unspecified order; it is modelled here as the occurrence
order produced by `dedup`, which none of the claims depend on.
`draws i j` is coordinate `j` of the i-th vector drawn from the random
source. -/
def adaptVocab (vocab : List (String × Vec)) (documents : List (List String))
    (embeddingDim : ℕ) (draws : ℕ → ℕ → ℚ) : List (String × Vec) :=
  let words := documents.flatten.dedup
  let oovWords := words.filter fun w => (vocab.lookup w).isNone
  vocab ++ oovWords.enum.map fun p => (p.2, (List.range embeddingDim).map (draws p.1))

/-- `TextVectorizer._transform_document`: the comprehension
`[self.vocabulary[word] for word in document]` inside `try`, re-raising
any `KeyError` as `NotAdaptedError`. -/
def lookupAllWords (vocab : List (String × Vec)) : List String → Option (List Vec)
  | [] => some []
  | w :: ws =>
    match vocab.lookup w, lookupAllWords vocab ws with
    | some v, some vs => some (v :: vs)
    | _, _ => none

/-- The message of the `NotAdaptedError` raised by
`_transform_document`. -/
def notAdaptedDocMsg : String :=
  "The whole document is not in the vocabulary. Please adapt the vocabulary first."

/-- One document transformed: its vector list, or `NotAdaptedError` as
soon as any word is missing from the vocabulary. -/
def transformDocument (vocab : List (String × Vec)) (document : List String) :
    Except PyError (List Vec) :=
  match lookupAllWords vocab document with
  | some vs => .ok vs
  | none => .error (.notAdapted notAdaptedDocMsg)

/-- `TextVectorizer.transform`: the per-document comprehension, aborting
on the first document that raises (`np.array` only repackages the result
and is the identity here). -/
def transformVocab (vocab : List (String × Vec)) :
    List (List String) → Except PyError (List (List Vec))
  | [] => .ok []
  | doc :: rest =>
    match transformDocument vocab doc with
    | .error e => .error e
    | .ok vs =>
      match transformVocab vocab rest with
      | .error e => .error e
      | .ok rests => .ok (vs :: rests)

/-- The `TextVectorizer` instance state: `max_tokens` and
`embedding_dim` are stored by `__init__`; `vocabulary` is the dict built
by `parse_glove` and grown by `adapt`. (The download step is pure I/O
and is not modelled.) -/
structure TextVectorizerState where
  max_tokens : ℕ
  embedding_dim : ℕ
  vocabulary : List (String × Vec)
  deriving Repr

/-- Method `adapt` on the instance state. -/
def TextVectorizerState.adapt (tv : TextVectorizerState)
    (documents : List (List String)) (draws : ℕ → ℕ → ℚ) : TextVectorizerState :=
  { tv with vocabulary := adaptVocab tv.vocabulary documents tv.embedding_dim draws }

/-- Method `transform` on the instance state. -/
def TextVectorizerState.transform (tv : TextVectorizerState)
    (documents : List (List String)) : Except PyError (List (List Vec)) :=
  transformVocab tv.vocabulary documents

/-- Method `parse_glove` on the instance state, given the lines of the
embedding file (`self.embedding_dim` is only interpolated into the file
name `glove.6B.<dim>d.txt`, never used to check the parsed vectors). -/
def TextVectorizerState.parse_glove (_tv : TextVectorizerState)
    (lines : List String) : Except PyError (List (String × Vec)) :=
  parseGlove lines

/-! ### Tag Vectorizer (src/text_vectorizer.py, TargetVectorizer).

`TargetVectorizer` wraps `sklearn.preprocessing.LabelBinarizer`, so the
relevant `LabelBinarizer` behaviour is embedded here: `fit` stores
`classes_`, the sorted distinct labels (`np.unique`); `transform` one-hot
encodes when there are three or more classes, but with one or two
classes it outputs a SINGLE binary column (`neg_label=0`, `pos_label=1`):
the second class maps to `[1]`, everything else to `[0]`. Before `fit`,
the attribute `classes_` does not exist on the estimator, so reading it
raises `AttributeError`. The fitted class list is `Option`-valued:
`none` before any successful `fit`. -/

/-- Lexicographic comparison of strings by code point, the order used by
`np.unique` / `np.sort` on string arrays (and by Lean and Python string
comparison alike). -/
def charListLe : List Char → List Char → Bool
  | [], _ => true
  | _ :: _, [] => false
  | a :: as, b :: bs =>
    if a.toNat < b.toNat then true
    else if b.toNat < a.toNat then false
    else charListLe as bs

/-- String comparison by code point. -/
def strLe (a b : String) : Bool := charListLe a.toList b.toList

/-- Insertion into a sorted list of strings. -/
def insertSorted (x : String) : List String → List String
  | [] => [x]
  | y :: ys => if strLe x y then x :: y :: ys else y :: insertSorted x ys

/-- Sort a list of strings by code point (insertion sort). -/
def sortStrings (l : List String) : List String := l.foldr insertSorted []

/-- `np.unique` on a list of labels: the sorted distinct values. -/
def npUnique (labels : List String) : List String := sortStrings labels.dedup

/-- `TargetVectorizer.adapt(targets)` =
`LabelBinarizer.fit(flattened labels)`: stores the sorted distinct
labels as `classes_`. `fit` of an empty label list raises `ValueError`
and leaves the estimator unfitted, hence `none`. -/
def targetAdapt (targets : List (List String)) : Option (List String) :=
  if targets.flatten.isEmpty then none
  else some (npUnique targets.flatten)

/-- One label encoded by a fitted `LabelBinarizer`: a genuine one-hot row
over `classes` when `classes.length ≥ 3`; a single binary cell otherwise
(`[1]` exactly for the second class; with a single class every seen
label gets `[0]`). -/
def lbTransformLabel (classes : List String) (label : String) : List ℕ :=
  if 3 ≤ classes.length then
    classes.map fun c => if c = label then 1 else 0
  else
    [if classes.getD 1 "" = label then 1 else 0]

/-- One binary/one-hot row decoded by a fitted `LabelBinarizer`
(`inverse_transform`): with at most two classes the single cell selects
`classes_[1]` when above the 0.5 threshold and `classes_[0]` otherwise;
with three or more classes the argmax position selects the class. -/
def lbInverseRow (classes : List String) (row : List ℕ) : String :=
  if 3 ≤ classes.length then
    let m := row.foldl max 0
    match row.indexOf? m with
    | some i => classes.getD i ""
    | none => classes.getD 0 ""
  else
    if 1 ≤ row.headD 0 then classes.getD 1 "" else classes.getD 0 ""

/-- `TargetVectorizer.transform(targets)`. The guard compares
`self.vectorizer.classes_.shape[0]` with 0 before raising
`NotAdaptedError`; when the vectorizer was never fitted the attribute
read itself raises `AttributeError`, so the guard is never reached. -/
def targetTransform (classes : Option (List String)) (targets : List (List String)) :
    Except PyError (List (List (List ℕ))) :=
  match classes with
  | none => .error (.attributeError "LabelBinarizer object has no attribute classes_")
  | some cs =>
    if cs.length = 0 then
      .error (.notAdapted "The target vectorizer has not been adapted yet. Please adapt it first.")
    else
      .ok (targets.map fun doc => doc.map (lbTransformLabel cs))

/-- `TargetVectorizer.inverse_transform(targets)`: same unreachable
guard, then per-document `LabelBinarizer.inverse_transform`. -/
def targetInverseTransform (classes : Option (List String))
    (targets : List (List (List ℕ))) : Except PyError (List (List String)) :=
  match classes with
  | none => .error (.attributeError "LabelBinarizer object has no attribute classes_")
  | some cs =>
    if cs.length = 0 then
      .error (.notAdapted "The target vectorizer has not been adapted yet. Please adapt it first.")
    else
      .ok (targets.map fun doc => doc.map (lbInverseRow cs))

/-! ### Theorems for the claims -/

/-- C1. The claim states that `transform` of a fitted `TargetVectorizer`
yields one-hot vectors whose length equals the number of classes, and in
particular that after `adapt` on `[["NN","VB"],["NN"]]` (classes
`["NN","VB"]`) transforming `["NN","VB"]` yields `[[1,0],[0,1]]`. The
class list is indeed `["NN","VB"]`, but `LabelBinarizer` collapses a
two-class problem to a single binary column, so the code actually
returns `[[0],[1]]`: rows of length 1, not of length 2 = number of
classes, contradicting both the claim and the method docstring
(shape `(docs, tokens, number of classes)` and one-hot encoding). -/
theorem c1_two_class_transform_is_binary_column :
    targetAdapt [["NN", "VB"], ["NN"]] = some ["NN", "VB"] ∧
    targetTransform (targetAdapt [["NN", "VB"], ["NN"]]) [["NN", "VB"]] =
      .ok [[[0], [1]]] ∧
    targetTransform (targetAdapt [["NN", "VB"], ["NN"]]) [["NN", "VB"]] ≠
      .ok [[[1, 0], [0, 1]]] := by
  refine ⟨by decide, by decide, by decide⟩

/-- C2. The claim states that `transform` and `inverse_transform` on a
never-adapted `TargetVectorizer` fail with `NotAdaptedError` and with no
other kind of error. Before `fit`, `LabelBinarizer` has no `classes_`
attribute, so the very guard `self.vectorizer.classes_.shape[0] == 0`
raises `AttributeError` first: both methods fail, but with
`AttributeError`, never reaching the `NotAdaptedError` raise. -/
theorem c2_unadapted_raises_attribute_error :
    targetTransform none [["NN"]] =
      .error (.attributeError "LabelBinarizer object has no attribute classes_") ∧
    targetInverseTransform none [[[1]]] =
      .error (.attributeError "LabelBinarizer object has no attribute classes_") ∧
    (∀ msg, targetTransform none [["NN"]] ≠ .error (.notAdapted msg)) ∧
    (∀ msg, targetInverseTransform none [[[1]]] ≠ .error (.notAdapted msg)) := by
  refine ⟨rfl, rfl, fun msg h => by simp [targetTransform] at h,
    fun msg h => by simp [targetInverseTransform] at h⟩

/-- C3. The claim states that a line without exactly three tab-separated
fields makes parsing fail with a `ParseError` identifying the offending
line. The code has no `ParseError` at all. In sentence-split mode the
tuple unpacking raises a bare `ValueError` whose message depends only on
the field count, never on the line content or position (two different
bad lines produce identical errors), so nothing identifies the line; and
in whole-document mode a file of two-field lines is silently accepted,
with no error raised at all. -/
theorem c3_malformed_line_value_error_without_context :
    parseDocSplit ["a\tNN"] =
      .error (.valueError "not enough values to unpack (expected 3, got 2)") ∧
    parseDocSplit ["a\tNN"] = parseDocSplit ["z\tZZ"] ∧
    parseDocSplit ["b\tVB\t2", "a\tNN"] = parseDocSplit ["b\tVB\t2", "z\tZZ"] ∧
    parseDocWhole ["a\tNN", "b\tVB"] = .ok (["a", "b"], ["NN", "VB"]) := by
  refine ⟨by decide, by decide, by decide, by decide⟩

/-- The observable shape of a `parse_glove` result: `none` when an
exception was raised, otherwise the list of words with the length of the
vector stored for each. -/
def gloveShape (r : Except PyError (List (String × Vec))) : Option (List (String × ℕ)) :=
  match r with
  | .error _ => none
  | .ok vocab => some (vocab.map fun p => (p.1, p.2.length))

/-- C4. The claim states that an embedding line whose vector part has a
length different from `embedding_dim` makes the loader fail with a
`FormatError`, and that every entry of a loaded vocabulary has a vector
of length exactly `embedding_dim`. `parse_glove` performs no validation:
for `embedding_dim = 2` the line `"cat 0.1"` is loaded successfully and
stores the truncated vector `[0.1]` of length 1, and a longer line
`"dog 0.3 0.4 0.5"` stores a length-3 vector; no error of any kind is
raised and both stored lengths differ from `embedding_dim = 2`. -/
theorem c4_parse_glove_accepts_wrong_length_vectors :
    gloveShape (parseGlove ["cat 0.1", "dog 0.3 0.4 0.5"]) =
      some [("cat", 1), ("dog", 3)] ∧
    (∀ p ∈ [("cat", 1), ("dog", 3)], (Prod.snd p : ℕ) ≠ 2) := by
  refine ⟨by decide, by decide⟩

/-- C5 counterexample. The claim states that in sentence-split mode no
emitted Document is empty. Parsing a file whose lines are one valid
record followed by two blank lines emits three Documents, the last two
with empty token and tag sequences: one for the second consecutive blank
line and one more for the end of the file after a trailing blank
line. -/
theorem c5_empty_documents_are_emitted :
    parseDocSplit ["a\tNN\t1", "", ""] =
      .ok [(["a"], ["NN"]), ([], []), ([], [])] ∧
    (([], []) ∈ [((["a"] : List String), (["NN"] : List String)), ([], []), ([], [])]) := by
  refine ⟨by decide, by decide⟩

/-- Invariant of the sentence-split loop: on well-formed input (every
non-blank line splits into exactly three tab-separated fields) and with
aligned accumulators, parsing succeeds and emits one Document per blank
line plus one for the end of the file, every emitted Document having
aligned (possibly empty) token and tag sequences. -/
theorem parseSentences_ok (lines : List String) :
    ∀ sentText sentTags : List String,
      (∀ l ∈ lines, pyIsBlank l = false → (pySplitTab l).length = 3) →
      sentText.length = sentTags.length →
      ∃ docs, parseSentences sentText sentTags lines = .ok docs ∧
        docs.length = lines.countP (fun l => pyIsBlank l) + 1 ∧
        ∀ p ∈ docs, p.1.length = p.2.length := by
  induction lines with
  | nil =>
    intro st tg _ hlen
    exact ⟨[(st, tg)], rfl, by simp, by simpa using hlen⟩
  | cons line rest ih =>
    intro st tg h hlen
    cases hb : pyIsBlank line with
    | true =>
      obtain ⟨docs, hok, hcount, hal⟩ :=
        ih [] [] (fun l hl => h l (List.mem_cons_of_mem _ hl)) rfl
      refine ⟨(st, tg) :: docs, ?_, ?_, ?_⟩
      · simp [parseSentences, hb, hok]
      · simp [List.countP_cons, hb, hcount]
      · intro p hp
        rcases List.mem_cons.mp hp with rfl | hp
        · exact hlen
        · exact hal p hp
    | false =>
      have h3 : (pySplitTab line).length = 3 :=
        h line (List.mem_cons_self _ _) hb
      obtain ⟨a, b, c, habc⟩ : ∃ a b c, pySplitTab line = [a, b, c] := by
        rcases hsp : pySplitTab line with _ | ⟨a, _ | ⟨b, _ | ⟨c, _ | _⟩⟩⟩ <;>
          simp [hsp] at h3
        exact ⟨a, b, c, rfl⟩
      obtain ⟨docs, hok, hcount, hal⟩ :=
        ih (st ++ [a]) (tg ++ [b])
          (fun l hl => h l (List.mem_cons_of_mem _ hl)) (by simp [hlen])
      refine ⟨docs, ?_, ?_, hal⟩
      · simp [parseSentences, hb, habc, hok]
      · simp [List.countP_cons, hb, hcount]

/-- C5 amended. What the code actually does in sentence-split mode: every
blank line emits the accumulated Document — empty when the blank line is
the first line or follows another blank line — and the end of the file
emits the accumulated sequence once more (so a trailing blank line also
produces an empty Document); on well-formed input parsing succeeds with
exactly one Document per blank line plus one, and every emitted Document
has token and tag sequences of equal length. -/
theorem c5_blank_lines_emit_accumulated_documents (lines : List String)
    (hwf : ∀ l ∈ lines, pyIsBlank l = false → (pySplitTab l).length = 3) :
    ∃ docs, parseDocSplit lines = .ok docs ∧
      docs.length = lines.countP (fun l => pyIsBlank l) + 1 ∧
      ∀ p ∈ docs, p.1.length = p.2.length :=
  parseSentences_ok lines [] [] hwf rfl

/-- C5 witness: the amended theorem applied to a concrete file whose
lines are a record, a blank line and another record. -/
theorem c5_blank_lines_emit_accumulated_documents_witness :
    ∃ docs, parseDocSplit ["a\tNN\t1", "", "c\tVB\t3"] = .ok docs ∧
      docs.length = (["a\tNN\t1", "", "c\tVB\t3"].countP (fun l => pyIsBlank l)) + 1 ∧
      ∀ p ∈ docs, p.1.length = p.2.length :=
  c5_blank_lines_emit_accumulated_documents ["a\tNN\t1", "", "c\tVB\t3"] (by decide)

/-- Arithmetic core of the splitter bounds: for nonnegative fractions
summing to at most 1, the two truncated slice sizes fit inside the
corpus. -/
theorem floorCounts_le (N : ℕ) (t d : ℚ) (ht0 : 0 ≤ t) (hd0 : 0 ≤ d) (htd : t + d ≤ 1) :
    (⌊t * (N : ℚ)⌋).toNat + (⌊d * (N : ℚ)⌋).toNat ≤ N := by
  have hNn : (0 : ℚ) ≤ (N : ℚ) := Nat.cast_nonneg N
  have h1 : 0 ≤ ⌊t * (N : ℚ)⌋ := Int.floor_nonneg.mpr (mul_nonneg ht0 hNn)
  have h2 : 0 ≤ ⌊d * (N : ℚ)⌋ := Int.floor_nonneg.mpr (mul_nonneg hd0 hNn)
  have hsum : ⌊t * (N : ℚ)⌋ + ⌊d * (N : ℚ)⌋ ≤ (N : ℤ) := by
    have hle : ((⌊t * (N : ℚ)⌋ : ℚ) + (⌊d * (N : ℚ)⌋ : ℚ)) ≤ (N : ℚ) :=
      calc (⌊t * (N : ℚ)⌋ : ℚ) + (⌊d * (N : ℚ)⌋ : ℚ) ≤ t * N + d * N :=
            add_le_add (Int.floor_le _) (Int.floor_le _)
        _ = (t + d) * N := by ring
        _ ≤ 1 * N := mul_le_mul_of_nonneg_right htd hNn
        _ = N := one_mul _
    exact_mod_cast hle
  omega

/-- Zipping the two column projections of a list of pairs restores the
list. -/
theorem zip_map_fst_snd_self {α β : Type} (l : List (α × β)) :
    (l.map Prod.fst).zip (l.map Prod.snd) = l := by
  have h := List.zip_unzip l
  rwa [List.unzip_eq_map] at h

/-- C7. For a corpus of `N` documents and fractions in `[0, 1]` with
`train_size + dev_size ≤ 1`, the splitter puts exactly
`floor(train_size * N)` documents in train, exactly `floor(dev_size * N)`
in dev (sizes truncated, not rounded), the remainder in test, and the
three sizes add up to `N`. Stated on the shuffled dataset of zipped
`(tokens, tags)` pairs, whose length is the corpus length `N`. -/
theorem c7_split_sizes {α β : Type} (dataset : List (α × β)) (t d : ℚ)
    (ht0 : 0 ≤ t) (_ht1 : t ≤ 1) (hd0 : 0 ≤ d) (_hd1 : d ≤ 1) (htd : t + d ≤ 1) :
    (trainDevTestSplit dataset t d).1.1.length = (⌊t * (dataset.length : ℚ)⌋).toNat ∧
    (trainDevTestSplit dataset t d).2.1.1.length = (⌊d * (dataset.length : ℚ)⌋).toNat ∧
    (trainDevTestSplit dataset t d).2.2.1.length =
      dataset.length - (⌊t * (dataset.length : ℚ)⌋).toNat - (⌊d * (dataset.length : ℚ)⌋).toNat ∧
    (trainDevTestSplit dataset t d).1.1.length + (trainDevTestSplit dataset t d).2.1.1.length +
      (trainDevTestSplit dataset t d).2.2.1.length = dataset.length := by
  have hab := floorCounts_le dataset.length t d ht0 hd0 htd
  simp only [trainDevTestSplit, List.length_map, List.length_take, List.length_drop]
  refine ⟨?_, ?_, ?_, ?_⟩ <;> omega

/-- C7 witness: four documents split with `train_size = 1/2` and
`dev_size = 1/4` give sizes 2, 1 and 1. -/
theorem c7_split_sizes_witness :
    (trainDevTestSplit [((0:ℕ), (0:ℕ)), (1, 1), (2, 2), (3, 3)] (1/2) (1/4)).1.1.length = 2 ∧
    (trainDevTestSplit [((0:ℕ), (0:ℕ)), (1, 1), (2, 2), (3, 3)] (1/2) (1/4)).2.1.1.length = 1 ∧
    (trainDevTestSplit [((0:ℕ), (0:ℕ)), (1, 1), (2, 2), (3, 3)] (1/2) (1/4)).2.2.1.length = 1 ∧
    (trainDevTestSplit [((0:ℕ), (0:ℕ)), (1, 1), (2, 2), (3, 3)] (1/2) (1/4)).1.1.length +
      (trainDevTestSplit [((0:ℕ), (0:ℕ)), (1, 1), (2, 2), (3, 3)] (1/2) (1/4)).2.1.1.length +
      (trainDevTestSplit [((0:ℕ), (0:ℕ)), (1, 1), (2, 2), (3, 3)] (1/2) (1/4)).2.2.1.length = 4 := by
  have h := c7_split_sizes [((0:ℕ), (0:ℕ)), (1, 1), (2, 2), (3, 3)] (1/2) (1/4)
    (by norm_num) (by norm_num) (by norm_num) (by norm_num) (by norm_num)
  norm_num [Int.toNat_ofNat] at h
  exact h

/-- C6. Whatever permutation the shuffle produced, the splitter slices
the same shuffled list of `(token sequence, tag sequence)` pairs for `X`
and `y`, so every output document keeps its original tag sequence (the
three parts pair up componentwise), and the concatenation of the zipped
train, dev and test parts is a permutation of the zipped input corpus:
no document is created, duplicated or lost. -/
theorem c6_split_is_permutation {α β : Type} (X : List α) (y : List β) (t d : ℚ)
    (_hlen : X.length = y.length) (_ht0 : 0 ≤ t) (_hd0 : 0 ≤ d) (_htd : t + d ≤ 1)
    (shuffled : List (α × β)) (hperm : shuffled.Perm (X.zip y)) :
    ((trainDevTestSplit shuffled t d).1.1.zip (trainDevTestSplit shuffled t d).1.2 ++
      (trainDevTestSplit shuffled t d).2.1.1.zip (trainDevTestSplit shuffled t d).2.1.2 ++
      (trainDevTestSplit shuffled t d).2.2.1.zip (trainDevTestSplit shuffled t d).2.2.2).Perm
        (X.zip y) ∧
    (trainDevTestSplit shuffled t d).1.1.length = (trainDevTestSplit shuffled t d).1.2.length ∧
    (trainDevTestSplit shuffled t d).2.1.1.length =
      (trainDevTestSplit shuffled t d).2.1.2.length ∧
    (trainDevTestSplit shuffled t d).2.2.1.length =
      (trainDevTestSplit shuffled t d).2.2.2.length := by
  simp only [trainDevTestSplit]
  set a := (⌊t * ((shuffled.map Prod.fst).length : ℚ)⌋).toNat with ha
  set b := (⌊d * ((shuffled.map Prod.fst).length : ℚ)⌋).toNat with hb
  have htr : ((shuffled.map Prod.fst).take a).zip ((shuffled.map Prod.snd).take a) =
      shuffled.take a := by
    rw [← List.map_take, ← List.map_take, zip_map_fst_snd_self]
  have hdv : (((shuffled.map Prod.fst).drop a).take b).zip
      (((shuffled.map Prod.snd).drop a).take b) = (shuffled.drop a).take b := by
    rw [← List.map_drop, ← List.map_drop, ← List.map_take, ← List.map_take,
      zip_map_fst_snd_self]
  have hte : ((shuffled.map Prod.fst).drop (a + b)).zip
      ((shuffled.map Prod.snd).drop (a + b)) = shuffled.drop (a + b) := by
    rw [← List.map_drop, ← List.map_drop, zip_map_fst_snd_self]
  refine ⟨?_, by simp, by simp, by simp⟩
  rw [htr, hdv, hte]
  have hsplit : shuffled.take a ++ (shuffled.drop a).take b ++ shuffled.drop (a + b) =
      shuffled := by
    rw [← List.drop_drop, List.append_assoc, List.take_append_drop, List.take_append_drop]
  rw [hsplit]
  exact hperm

/-- C6 witness: a concrete three-document corpus, a concrete shuffle of
it, and fractions `1/3`, `1/3`. -/
theorem c6_split_is_permutation_witness :
    ((trainDevTestSplit [((2:ℕ), (20:ℕ)), (1, 10), (3, 30)] (1/3) (1/3)).1.1.zip
        (trainDevTestSplit [((2:ℕ), (20:ℕ)), (1, 10), (3, 30)] (1/3) (1/3)).1.2 ++
      (trainDevTestSplit [((2:ℕ), (20:ℕ)), (1, 10), (3, 30)] (1/3) (1/3)).2.1.1.zip
        (trainDevTestSplit [((2:ℕ), (20:ℕ)), (1, 10), (3, 30)] (1/3) (1/3)).2.1.2 ++
      (trainDevTestSplit [((2:ℕ), (20:ℕ)), (1, 10), (3, 30)] (1/3) (1/3)).2.2.1.zip
        (trainDevTestSplit [((2:ℕ), (20:ℕ)), (1, 10), (3, 30)] (1/3) (1/3)).2.2.2).Perm
          ([1, 2, 3].zip [10, 20, 30]) ∧
    (trainDevTestSplit [((2:ℕ), (20:ℕ)), (1, 10), (3, 30)] (1/3) (1/3)).1.1.length =
      (trainDevTestSplit [((2:ℕ), (20:ℕ)), (1, 10), (3, 30)] (1/3) (1/3)).1.2.length ∧
    (trainDevTestSplit [((2:ℕ), (20:ℕ)), (1, 10), (3, 30)] (1/3) (1/3)).2.1.1.length =
      (trainDevTestSplit [((2:ℕ), (20:ℕ)), (1, 10), (3, 30)] (1/3) (1/3)).2.1.2.length ∧
    (trainDevTestSplit [((2:ℕ), (20:ℕ)), (1, 10), (3, 30)] (1/3) (1/3)).2.2.1.length =
      (trainDevTestSplit [((2:ℕ), (20:ℕ)), (1, 10), (3, 30)] (1/3) (1/3)).2.2.2.length :=
  c6_split_is_permutation [1, 2, 3] [10, 20, 30] (1/3) (1/3) rfl
    (by norm_num) (by norm_num) (by norm_num)
    [((2:ℕ), (20:ℕ)), (1, 10), (3, 30)] (by decide)

/-! ### Association-list lemmas shared by the vocabulary claims -/

/-- A key bound in the left part of an appended association list keeps
its binding. -/
theorem lookup_append_some {β : Type} (m1 m2 : List (String × β)) (k : String) (v : β)
    (h : m1.lookup k = some v) : (m1 ++ m2).lookup k = some v := by
  induction m1 with
  | nil => simp [List.lookup] at h
  | cons p rest ih =>
    obtain ⟨a, b⟩ := p
    cases hk : (k == a) with
    | true =>
      rw [List.lookup_cons, hk] at h
      rw [List.cons_append, List.lookup_cons, hk]
      exact h
    | false =>
      rw [List.lookup_cons, hk] at h
      rw [List.cons_append, List.lookup_cons, hk]
      exact ih h

/-- A key unbound in the left part of an appended association list is
looked up in the right part. -/
theorem lookup_append_none {β : Type} (m1 m2 : List (String × β)) (k : String)
    (h : m1.lookup k = none) : (m1 ++ m2).lookup k = m2.lookup k := by
  induction m1 with
  | nil => simp
  | cons p rest ih =>
    obtain ⟨a, b⟩ := p
    cases hk : (k == a) with
    | true => rw [List.lookup_cons, hk] at h; exact absurd h (by simp)
    | false =>
      rw [List.lookup_cons, hk] at h
      rw [List.cons_append, List.lookup_cons, hk]
      exact ih h

/-- Lookup succeeds for every key that occurs in the association list. -/
theorem lookup_isSome_of_mem_keys {β : Type} (l : List (String × β)) (k : String)
    (h : k ∈ l.map Prod.fst) : (l.lookup k).isSome := by
  induction l with
  | nil => simp at h
  | cons p rest ih =>
    obtain ⟨a, b⟩ := p
    cases hk : (k == a) with
    | true => rw [List.lookup_cons, hk]; rfl
    | false =>
      rw [List.lookup_cons, hk]
      have hka : k ≠ a := by simpa using hk
      rcases List.mem_map.mp h with ⟨q, hq, hfst⟩
      rcases List.mem_cons.mp hq with rfl | hq2
      · exact absurd hfst.symm (by simpa using hka)
      · exact ih (List.mem_map.mpr ⟨q, hq2, hfst⟩)

/-- The keys after `adapt` are the old keys followed by exactly the
distinct document words that were missing. -/
theorem adaptVocab_keys (vocab : List (String × Vec)) (documents : List (List String))
    (dim : ℕ) (draws : ℕ → ℕ → ℚ) :
    (adaptVocab vocab documents dim draws).map Prod.fst =
      vocab.map Prod.fst ++
        documents.flatten.dedup.filter (fun w => (vocab.lookup w).isNone) := by
  simp [adaptVocab, List.map_map, Function.comp_def, List.enum_map_snd]

/-- After `adapt` over a corpus, every word of that corpus is in the
vocabulary. -/
theorem adaptVocab_lookup_isSome (vocab : List (String × Vec)) (corpus : List (List String))
    (dim : ℕ) (draws : ℕ → ℕ → ℚ) (w : String) (hw : w ∈ corpus.flatten) :
    ((adaptVocab vocab corpus dim draws).lookup w).isSome := by
  cases hv : vocab.lookup w with
  | some v =>
    simp only [adaptVocab]
    rw [lookup_append_some _ _ _ _ hv]
    rfl
  | none =>
    simp only [adaptVocab]
    rw [lookup_append_none _ _ _ hv]
    apply lookup_isSome_of_mem_keys
    have hkeys : ((corpus.flatten.dedup.filter (fun w => (vocab.lookup w).isNone)).enum.map
        (fun p => (p.2, (List.range dim).map (draws p.1)))).map Prod.fst =
        corpus.flatten.dedup.filter (fun w => (vocab.lookup w).isNone) := by
      simp [List.map_map, Function.comp_def, List.enum_map_snd]
    rw [hkeys]
    exact List.mem_filter.mpr ⟨List.mem_dedup.mpr hw, by simp [hv]⟩

/-- `adapt` is the identity on a vocabulary that already contains every
word of the documents. -/
theorem adaptVocab_eq_self_of_covered (vocab : List (String × Vec))
    (documents : List (List String)) (dim : ℕ) (draws : ℕ → ℕ → ℚ)
    (h : ∀ w ∈ documents.flatten, (vocab.lookup w).isSome) :
    adaptVocab vocab documents dim draws = vocab := by
  have hfilter : documents.flatten.dedup.filter (fun w => (vocab.lookup w).isNone) = [] := by
    rw [List.filter_eq_nil_iff]
    intro w hw
    have h2 := h w (List.mem_dedup.mp hw)
    simp only [Option.isNone_iff_eq_none]
    exact Option.ne_none_iff_isSome.mpr h2
  simp only [adaptVocab, hfilter, List.enum_nil, List.map_nil, List.append_nil]

/-- C8. `TextVectorizer.adapt` never overwrites and is idempotent: every
word already bound keeps its vector (pretrained or previously added
OOV alike), the keys after `adapt` are the old keys plus exactly the
distinct missing document words (each once), and a second `adapt` with
the same documents — whatever its random draws — adds nothing and
returns the vocabulary unchanged. -/
theorem c8_adapt_idempotent_never_overwrites (vocab : List (String × Vec))
    (documents : List (List String)) (dim : ℕ) (draws draws2 : ℕ → ℕ → ℚ) :
    (∀ w v, vocab.lookup w = some v →
      (adaptVocab vocab documents dim draws).lookup w = some v) ∧
    (adaptVocab vocab documents dim draws).map Prod.fst =
      vocab.map Prod.fst ++
        documents.flatten.dedup.filter (fun w => (vocab.lookup w).isNone) ∧
    adaptVocab (adaptVocab vocab documents dim draws) documents dim draws2 =
      adaptVocab vocab documents dim draws := by
  refine ⟨?_, adaptVocab_keys vocab documents dim draws, ?_⟩
  · intro w v hv
    simp only [adaptVocab]
    exact lookup_append_some _ _ _ _ hv
  · exact adaptVocab_eq_self_of_covered _ _ _ _
      (fun w hw => adaptVocab_lookup_isSome vocab documents dim draws w hw)

/-- A document fails to look up in the vocabulary exactly when one of
its words is unbound (the `KeyError` of the comprehension). -/
theorem lookupAllWords_eq_none_iff (vocab : List (String × Vec)) (document : List String) :
    lookupAllWords vocab document = none ↔ ∃ w ∈ document, vocab.lookup w = none := by
  induction document with
  | nil => simp [lookupAllWords]
  | cons w ws ih =>
    cases hw : vocab.lookup w with
    | none =>
      simp only [lookupAllWords, hw]
      exact iff_of_true (by trivial) ⟨w, List.mem_cons_self _ _, hw⟩
    | some v =>
      cases hws : lookupAllWords vocab ws with
      | none =>
        simp only [lookupAllWords, hw, hws]
        rw [hws] at ih
        obtain ⟨u, hu, hun⟩ := ih.mp rfl
        exact iff_of_true (by trivial) ⟨u, List.mem_cons_of_mem _ hu, hun⟩
      | some vs =>
        simp only [lookupAllWords, hw, hws]
        rw [hws] at ih
        refine iff_of_false (by simp) ?_
        rintro ⟨u, hu, hun⟩
        rcases List.mem_cons.mp hu with rfl | hu2
        · rw [hw] at hun; cases hun
        · have h2 := ih.mpr ⟨u, hu2, hun⟩
          cases h2

/-- When every word of the document is bound, the comprehension returns
one vector per word, in order. -/
theorem lookupAllWords_eq_map (vocab : List (String × Vec)) (document : List String)
    (h : ∀ w ∈ document, (vocab.lookup w).isSome) :
    lookupAllWords vocab document =
      some (document.map fun w => (vocab.lookup w).getD []) := by
  induction document with
  | nil => simp [lookupAllWords]
  | cons w ws ih =>
    obtain ⟨v, hv⟩ := Option.isSome_iff_exists.mp (h w (List.mem_cons_self _ _))
    have hws := ih fun u hu => h u (List.mem_cons_of_mem _ hu)
    simp [lookupAllWords, hv, hws]

/-- The only exception `transform` can raise is `NotAdaptedError`, with
its fixed message. -/
theorem transformVocab_error_msg (vocab : List (String × Vec)) :
    ∀ docs : List (List String), ∀ e,
      transformVocab vocab docs = .error e → e = .notAdapted notAdaptedDocMsg := by
  intro docs
  induction docs with
  | nil => intro e he; cases he
  | cons doc rest ih =>
    intro e he
    cases hd : transformDocument vocab doc with
    | error e0 =>
      simp only [transformVocab, hd] at he
      cases he
      revert hd
      unfold transformDocument
      cases lookupAllWords vocab doc with
      | none => intro hd; cases hd; rfl
      | some vs => intro hd; cases hd
    | ok vs =>
      cases hr : transformVocab vocab rest with
      | error e1 =>
        simp only [transformVocab, hd, hr] at he
        cases he
        exact ih _ hr
      | ok rests => simp only [transformVocab, hd, hr] at he; cases he

/-- `transform` raises exactly when some document has an unbound
word. -/
theorem transformVocab_error_iff (vocab : List (String × Vec)) (docs : List (List String)) :
    (∃ e, transformVocab vocab docs = .error e) ↔
      ∃ doc ∈ docs, lookupAllWords vocab doc = none := by
  induction docs with
  | nil =>
    constructor
    · rintro ⟨e, he⟩; cases he
    · rintro ⟨doc, hd, _⟩; cases hd
  | cons doc rest ih =>
    cases hd : lookupAllWords vocab doc with
    | none =>
      constructor
      · intro _; exact ⟨doc, List.mem_cons_self _ _, hd⟩
      · intro _
        refine ⟨.notAdapted notAdaptedDocMsg, ?_⟩
        simp only [transformVocab, transformDocument, hd]
    | some vs =>
      have hdoc : transformDocument vocab doc = .ok vs := by
        simp only [transformDocument, hd]
      constructor
      · rintro ⟨e, he⟩
        simp only [transformVocab, hdoc] at he
        cases hr : transformVocab vocab rest with
        | error e1 =>
          obtain ⟨d, hdm, hdn⟩ := ih.mp ⟨e1, hr⟩
          exact ⟨d, List.mem_cons_of_mem _ hdm, hdn⟩
        | ok rests => rw [hr] at he; cases he
      · rintro ⟨d, hdm, hdn⟩
        rcases List.mem_cons.mp hdm with rfl | hdm2
        · rw [hd] at hdn; cases hdn
        · obtain ⟨e1, he1⟩ := ih.mpr ⟨d, hdm2, hdn⟩
          refine ⟨e1, ?_⟩
          simp only [transformVocab, hdoc, he1]

/-- When the vocabulary covers every word, `transform` returns one
embedding per token, document by document, in input order. -/
theorem transformVocab_ok (vocab : List (String × Vec)) (docs : List (List String))
    (h : ∀ doc ∈ docs, ∀ w ∈ doc, (vocab.lookup w).isSome) :
    transformVocab vocab docs =
      .ok (docs.map fun doc => doc.map fun w => (vocab.lookup w).getD []) := by
  induction docs with
  | nil => rfl
  | cons doc rest ih =>
    have hdoc : transformDocument vocab doc =
        .ok (doc.map fun w => (vocab.lookup w).getD []) := by
      simp only [transformDocument,
        lookupAllWords_eq_map vocab doc (h doc (List.mem_cons_self _ _))]
    have hrest := ih fun d hd => h d (List.mem_cons_of_mem _ hd)
    simp only [transformVocab, hdoc, hrest, List.map_cons]

/-- C9. `TextVectorizer.transform` raises `NotAdaptedError` exactly when
some token of some input document is absent from the vocabulary — and
that is the only exception it raises; after `adapt` on the same corpus
or on any corpus whose tokens cover the input, `transform` succeeds and
returns, for each document, one embedding vector per token in input
order. -/
theorem c9_notadapted_iff_missing_token (vocab : List (String × Vec))
    (docs corpus : List (List String)) (dim : ℕ) (draws : ℕ → ℕ → ℚ)
    (hsub : ∀ doc ∈ docs, ∀ w ∈ doc, w ∈ corpus.flatten) :
    ((∃ msg, transformVocab vocab docs = .error (.notAdapted msg)) ↔
      ∃ doc ∈ docs, ∃ w ∈ doc, vocab.lookup w = none) ∧
    (∀ e, transformVocab vocab docs = .error e → e = .notAdapted notAdaptedDocMsg) ∧
    transformVocab (adaptVocab vocab corpus dim draws) docs =
      .ok (docs.map fun doc => doc.map fun w =>
        ((adaptVocab vocab corpus dim draws).lookup w).getD []) := by
  refine ⟨?_, transformVocab_error_msg vocab docs, ?_⟩
  · constructor
    · rintro ⟨msg, hmsg⟩
      obtain ⟨doc, hdm, hdn⟩ := (transformVocab_error_iff vocab docs).mp ⟨_, hmsg⟩
      obtain ⟨w, hw, hwn⟩ := (lookupAllWords_eq_none_iff vocab doc).mp hdn
      exact ⟨doc, hdm, w, hw, hwn⟩
    · rintro ⟨doc, hdm, w, hw, hwn⟩
      obtain ⟨e, he⟩ := (transformVocab_error_iff vocab docs).mpr
        ⟨doc, hdm, (lookupAllWords_eq_none_iff vocab doc).mpr ⟨w, hw, hwn⟩⟩
      have := transformVocab_error_msg vocab docs e he
      exact ⟨notAdaptedDocMsg, by rw [← this]; exact he⟩
  · exact transformVocab_ok _ _ fun doc hd w hw =>
      adaptVocab_lookup_isSome vocab corpus dim draws w (hsub doc hd w hw)

/-- A concrete random source for the witnesses. -/
def constDraws : ℕ → ℕ → ℚ := fun _ _ => 1/3

/-- C9 witness: a pretrained vocabulary with `"cat"` only, transformed
documents `[["cat"], ["cat", "dog"]]`, adapted over the covering corpus
`[["cat", "dog"], ["fox"]]`. -/
theorem c9_notadapted_iff_missing_token_witness :
    ((∃ msg, transformVocab [("cat", [1, 2])] [["cat"], ["cat", "dog"]] =
        .error (.notAdapted msg)) ↔
      ∃ doc ∈ [["cat"], ["cat", "dog"]], ∃ w ∈ doc,
        ([("cat", ([1, 2] : Vec))] : List (String × Vec)).lookup w = none) ∧
    (∀ e, transformVocab [("cat", [1, 2])] [["cat"], ["cat", "dog"]] = .error e →
      e = .notAdapted notAdaptedDocMsg) ∧
    transformVocab (adaptVocab [("cat", [1, 2])] [["cat", "dog"], ["fox"]] 2 constDraws)
        [["cat"], ["cat", "dog"]] =
      .ok ([["cat"], ["cat", "dog"]].map fun doc => doc.map fun w =>
        ((adaptVocab [("cat", [1, 2])] [["cat", "dog"], ["fox"]] 2 constDraws).lookup w).getD
          []) :=
  c9_notadapted_iff_missing_token [("cat", [1, 2])] [["cat"], ["cat", "dog"]]
    [["cat", "dog"], ["fox"]] 2 constDraws (by decide)

/-- C10. `max_tokens` is stored by `__init__` and never read again: two
instances that agree on `embedding_dim` and on the vocabulary but have
arbitrary `max_tokens` values behave identically on `parse_glove`,
`adapt` and `transform`; the vocabulary growth law makes no reference to
`max_tokens`, and an instance whose vocabulary exceeds its `max_tokens`
exists, so the limit is never enforced. -/
theorem c10_max_tokens_has_no_effect (tv1 tv2 : TextVectorizerState)
    (hdim : tv1.embedding_dim = tv2.embedding_dim)
    (hvoc : tv1.vocabulary = tv2.vocabulary) :
    (∀ lines, tv1.parse_glove lines = tv2.parse_glove lines) ∧
    (∀ documents draws, (tv1.adapt documents draws).vocabulary =
        (tv2.adapt documents draws).vocabulary) ∧
    (∀ documents, tv1.transform documents = tv2.transform documents) ∧
    (∀ documents draws, ((tv1.adapt documents draws).vocabulary).length =
        tv1.vocabulary.length +
          (documents.flatten.dedup.filter
            (fun w => (tv1.vocabulary.lookup w).isNone)).length) ∧
    (∃ tv : TextVectorizerState, ∃ documents draws,
      tv.max_tokens < ((tv.adapt documents draws).vocabulary).length) := by
  refine ⟨fun lines => rfl, ?_, ?_, ?_, ?_⟩
  · intro documents draws
    simp only [TextVectorizerState.adapt, hvoc, hdim]
  · intro documents
    simp only [TextVectorizerState.transform, hvoc]
  · intro documents draws
    simp [TextVectorizerState.adapt, adaptVocab, List.enum_length]
  · exact ⟨⟨0, 1, []⟩, [["a"]], constDraws, by decide⟩

/-- C10 witness: two instances sharing `embedding_dim = 2` and the empty
pretrained vocabulary but with `max_tokens` 5 and 9999. -/
theorem c10_max_tokens_has_no_effect_witness :
    (∀ lines, TextVectorizerState.parse_glove ⟨5, 2, []⟩ lines =
        TextVectorizerState.parse_glove ⟨9999, 2, []⟩ lines) ∧
    (∀ documents draws, (TextVectorizerState.adapt ⟨5, 2, []⟩ documents draws).vocabulary =
        (TextVectorizerState.adapt ⟨9999, 2, []⟩ documents draws).vocabulary) ∧
    (∀ documents, TextVectorizerState.transform ⟨5, 2, []⟩ documents =
        TextVectorizerState.transform ⟨9999, 2, []⟩ documents) ∧
    (∀ documents draws,
      ((TextVectorizerState.adapt ⟨5, 2, []⟩ documents draws).vocabulary).length =
        (TextVectorizerState.mk 5 2 []).vocabulary.length +
          (documents.flatten.dedup.filter
            (fun w => ((TextVectorizerState.mk 5 2 []).vocabulary.lookup w).isNone)).length) ∧
    (∃ tv : TextVectorizerState, ∃ documents draws,
      tv.max_tokens < ((tv.adapt documents draws).vocabulary).length) :=
  c10_max_tokens_has_no_effect ⟨5, 2, []⟩ ⟨9999, 2, []⟩ rfl rfl
